import Mathlib

/-!
Shallow embedding of the multi-provider LLM streaming gateway implemented in
`src/app/api/chat/route.ts` of the ai-interview-booking repository: provider
resolution from environment credentials, system-prompt synthesis, the
per-provider upstream payload builders, the POST/GET handler control flow,
and the three streaming transforms (OpenAI SSE, Anthropic SSE, Ollama
newline-delimited JSON) together with a character-level model of
`JSON.parse`.  JavaScript strings are modelled as Lean `String`s (or lists
of characters inside the stream transforms); `string | undefined` values are
modelled as `Option String`.
-/

namespace Gateway

/-- JS `a || b` for `a : string | undefined`: `b` when `a` is `undefined` or
the empty string (the only falsy strings), `a` otherwise. -/
def jsOr (a : Option String) (b : String) : String :=
  match a with
  | some s => if s = "" then b else s
  | none => b

/-- ASCII whitespace trimmed by JS `String.prototype.trim` (the exotic
Unicode space classes do not occur in the gateway's inputs). -/
def jsWhitespace (c : Char) : Bool :=
  c = ' ' || c = '\t' || c = '\n' || c = '\r' || c = '\x0b' || c = '\x0c'

/-- JS `String.prototype.trim` on a character list. -/
def jsTrim (cs : List Char) : List Char :=
  ((cs.dropWhile jsWhitespace).reverse.dropWhile jsWhitespace).reverse

/-- JS `String.prototype.trim` on a string. -/
def jsTrimStr (s : String) : String :=
  String.mk (jsTrim s.data)

/-- JS `Array.prototype.join(sep)`. -/
def joinSep (sep : String) : List String → String
  | [] => ""
  | [x] => x
  | x :: rest => x ++ sep ++ joinSep sep rest

/-- The `difficultyDescriptions` record literal in `getSystemPrompt`
(route.ts lines 26-30); `none` models an absent key. -/
def difficultyDescriptions (d : String) : Option String :=
  if d = "beginner" then some "entry-level, focusing on fundamentals and basic concepts"
  else if d = "intermediate" then some "mid-level, covering practical experience and problem-solving"
  else if d = "advanced" then some "senior-level, including system design, architecture, and complex scenarios"
  else none

/-- The `typeDescriptions` record literal (route.ts lines 32-39). -/
def typeDescriptions (t : String) : Option String :=
  if t = "coding" then some "live coding challenges and algorithm questions"
  else if t = "multiple-choice" then some "quiz-style knowledge checks"
  else if t = "behavioral" then some "situational and behavioral questions (STAR method)"
  else if t = "technical" then some "deep technical concepts and system knowledge"
  else if t = "hr" then some "culture fit, soft skills, and career goals"
  else if t = "hiring-manager" then some "leadership, vision, and strategic thinking"
  else none

/-- `interviewTypes?.map((t) => typeDescriptions[t] || t).join(", ") ||
"general technical questions"` (route.ts line 41). -/
def selectedTypesLine (interviewTypes : Option (List String)) : String :=
  jsOr (interviewTypes.map (fun ts => joinSep ", " (ts.map (fun t => jsOr (typeDescriptions t) t))))
    "general technical questions"

/-- ``duration ? `${duration} minute` : "30 minute"`` (route.ts line 43);
the number `0` is falsy in JS. -/
def sessionLength (duration : Option Nat) : String :=
  match duration with
  | some d => if d ≠ 0 then toString d ++ " minute" else "30 minute"
  | none => "30 minute"

/-- The `contextSection` local (route.ts lines 45-48). -/
def contextSection (jobDescription : Option String) : String :=
  match jobDescription with
  | some j => if jsTrimStr j ≠ "" then "\nJob Description:\n" ++ j ++ "\n" else ""
  | none => ""

/-- The `switch (difficulty)` block building `difficultyInstructions`
(route.ts lines 51-82); any value other than `"beginner"` or `"advanced"`
falls to the `default` (intermediate) case. -/
def difficultyInstructions (difficulty : Option String) : String :=
  if difficulty = some "beginner" then
    "\nBeginner-Level Guidelines:\n- Start with fundamental concepts and basic questions\n- Provide helpful hints if the candidate struggles (e.g., \"Think about...\" or \"Consider...\")\n- Break down complex topics into simpler parts\n- Offer encouragement and guide them toward the answer\n- Focus on understanding rather than speed\n- If they're stuck, provide a small clue before moving on"
  else if difficulty = some "advanced" then
    "\nAdvanced-Level Guidelines:\n- Include system design questions and architectural discussions\n- Ask about edge cases, scalability, and trade-offs\n- Probe deeper with follow-up questions on their answers\n- Expect detailed explanations of time/space complexity\n- Discuss real-world constraints and production considerations\n- Challenge assumptions and explore alternative approaches\n- Ask about failure modes and error handling strategies"
  else
    "\nIntermediate-Level Guidelines:\n- Balance theoretical knowledge with practical application\n- Ask about real-world experience and problem-solving approaches\n- Expect reasonable explanations but don't require exhaustive detail\n- Include some follow-up questions to test depth of knowledge"

/-- The coding block appended when `types.includes("coding")`
(route.ts lines 88-98), including the difficulty-branched last bullet. -/
def codingInstructions (difficulty : Option String) : String :=
  "\nCoding Interview Instructions:\n- Present clear coding problems with specific requirements\n- Ask the candidate to explain their approach before coding\n- Evaluate code for: correctness, efficiency, readability, and edge case handling\n- Ask about time and space complexity\n- If syntax errors are present, point them out and ask for corrections\n- For " ++
  (if difficulty = some "beginner" then
    "beginner level: use simple problems like array manipulation, string operations, or basic data structures"
  else if difficulty = some "advanced" then
    "advanced level: include dynamic programming, graph algorithms, or system design coding"
  else
    "intermediate level: include medium complexity problems with multiple approaches") ++ "\n"

/-- The behavioral block (route.ts lines 100-108). -/
def behavioralInstructions : String :=
  "\nBehavioral Interview Instructions:\n- Use the STAR method (Situation, Task, Action, Result)\n- Ask about past experiences, challenges, and how they handled them\n- Probe for specific examples, not hypotheticals\n- Listen for teamwork, leadership, and problem-solving skills\n"

/-- The technical block (route.ts lines 110-118). -/
def technicalInstructions (difficulty : Option String) : String :=
  "\nTechnical Interview Instructions:\n- Test deep understanding of technical concepts\n- Ask about architecture decisions and trade-offs\n- Discuss technologies, frameworks, and best practices\n- " ++
  (if difficulty = some "advanced" then
    "Include system design scenarios and scalability discussions"
  else
    "Focus on core concepts and practical application") ++ "\n"

/-- The multiple-choice block (route.ts lines 120-127). -/
def multipleChoiceInstructions : String :=
  "\nMultiple-Choice Instructions:\n- Present quiz-style questions with clear options (A, B, C, D)\n- After the candidate answers, explain why the answer is correct or incorrect\n- Cover a range of topics within the interview focus\n"

/-- The HR block (route.ts lines 129-136). -/
def hrInstructions : String :=
  "\nHR Interview Instructions:\n- Assess culture fit and soft skills\n- Ask about career goals, motivation, and values\n- Discuss work style, collaboration preferences, and expectations\n"

/-- The hiring-manager block (route.ts lines 138-145). -/
def hiringManagerInstructions : String :=
  "\nHiring Manager Interview Instructions:\n- Assess leadership potential and strategic thinking\n- Ask about vision, decision-making, and team management\n- Discuss how they would approach challenges in the role\n"

/-- The `typeInstructions` accumulator (route.ts lines 85-145): a fixed
chain of `if (types.includes(...)) typeInstructions += ...` statements. -/
def typeInstructions (types : List String) (difficulty : Option String) : String :=
  (if types.contains "coding" then codingInstructions difficulty else "") ++
  (if types.contains "behavioral" then behavioralInstructions else "") ++
  (if types.contains "technical" then technicalInstructions difficulty else "") ++
  (if types.contains "multiple-choice" then multipleChoiceInstructions else "") ++
  (if types.contains "hr" then hrInstructions else "") ++
  (if types.contains "hiring-manager" then hiringManagerInstructions else "")

/-- The `typeLabels` record literal (route.ts lines 150-157). -/
def typeLabels (t : String) : Option String :=
  if t = "coding" then some "coding exercise"
  else if t = "behavioral" then some "behavioral questions"
  else if t = "technical" then some "technical discussion"
  else if t = "multiple-choice" then some "knowledge quiz"
  else if t = "hr" then some "HR/culture fit discussion"
  else if t = "hiring-manager" then some "leadership assessment"
  else none

/-- The hybrid block appended when more than one type is selected
(route.ts lines 148-165). -/
def hybridInstructions (types : List String) : String :=
  if types.length > 1 then
    "\nHybrid Interview Structure:\nThis is a hybrid interview combining multiple formats. At the start, briefly explain the structure to the candidate:\n\"This interview will cover: " ++
    joinSep ", then " (types.map (fun t => jsOr (typeLabels t) t)) ++
    ".\"\nTransition smoothly between sections with brief announcements like \"Now let's move on to the " ++
    jsOr ((types.map (fun t => jsOr (typeLabels t) t)).get? 1) "next section" ++
    ".\"\n"
  else ""

/-- The final template literal returned by `getSystemPrompt`
(route.ts lines 167-180). -/
def promptTemplate (sessionLen difficultyLevel selectedTypes contextSec diffInstr typeInstr hybridInstr : String) : String :=
  "You are an expert interviewer conducting a " ++ sessionLen ++
  " mock interview session. The difficulty level is " ++ difficultyLevel ++
  ".\n\nInterview focus areas: " ++ selectedTypes ++ "\n" ++ contextSec ++
  "\nCore Guidelines:\n- Start with a warm greeting if this is the beginning of the interview\n- Ask one question at a time, appropriate for the difficulty level\n- After each answer, acknowledge briefly (1-2 sentences max) and move to the next question\n- Keep questions focused and clear\n- Adapt your questions based on the candidate's responses\n- Be encouraging but realistic in your assessment\n" ++
  diffInstr ++ "\n" ++ typeInstr ++ "\n" ++ hybridInstr

/-- `getSystemPrompt(jobDescription?, interviewTypes?, difficulty?,
duration?)` (route.ts lines 20-181).  `types = interviewTypes || []`
keeps an empty array (arrays are truthy in JS), so it is `getD []`. -/
def getSystemPrompt (jobDescription : Option String) (interviewTypes : Option (List String))
    (difficulty : Option String) (duration : Option Nat) : String :=
  promptTemplate (sessionLength duration)
    (jsOr (difficultyDescriptions (jsOr difficulty "intermediate")) "mid-level difficulty")
    (selectedTypesLine interviewTypes)
    (contextSection jobDescription)
    (difficultyInstructions difficulty)
    (typeInstructions (interviewTypes.getD []) difficulty)
    (hybridInstructions (interviewTypes.getD []))

/-- A role tag on a conversation message (`Message.role` in route.ts). -/
inductive Role where
  | system
  | user
  | assistant
deriving DecidableEq, Repr

/-- A conversation message (`Message` in route.ts). -/
structure ChatMessage where
  role : Role
  content : String
deriving DecidableEq, Repr

/-- A snapshot of the credential environment variables read by the route;
`none` models an unset variable.  JS treats an empty-string value as falsy,
which `present` below reproduces. -/
structure Env where
  openaiKey : Option String
  anthropicKey : Option String
  ollamaKey : Option String
  huggingfaceKey : Option String
deriving DecidableEq, Repr

/-- Truthiness of `process.env.X`: set and non-empty. -/
def present (v : Option String) : Bool :=
  match v with
  | some s => s ≠ ""
  | none => false

/-- The `Provider` type of route.ts line 17; `Provider.none` models the
`null` member. -/
inductive Provider where
  | openai
  | anthropic
  | ollama
  | huggingface
  | none
deriving DecidableEq, Repr

/-- `detectProvider()` (route.ts lines 184-190). -/
def detectProvider (env : Env) : Provider :=
  if present env.openaiKey then .openai
  else if present env.anthropicKey then .anthropic
  else if present env.ollamaKey then .ollama
  else if present env.huggingfaceKey then .huggingface
  else .none

/-- The message array sent in the OpenAI request body:
`[{ role: "system", content: systemPrompt }, ...messages]`
(route.ts line 216). -/
def openAIMessages (messages : List ChatMessage) (systemPrompt : String) : List ChatMessage :=
  { role := .system, content := systemPrompt } :: messages

/-- The `anthropicMessages` array (route.ts lines 260-263):
`role: msg.role === "assistant" ? "assistant" : "user"`. -/
def anthropicMessages (messages : List ChatMessage) : List ChatMessage :=
  messages.map (fun m =>
    { role := if m.role = .assistant then .assistant else .user, content := m.content })

/-- The lines of the single Ollama prompt string (route.ts lines 409-412). -/
def ollamaPromptLines (messages : List ChatMessage) (systemPrompt : String) : List String :=
  ("System: " ++ systemPrompt) ::
    messages.map (fun m => (if m.role = .user then "User" else "Assistant") ++ ": " ++ m.content)

/-- The Ollama prompt: the lines joined with `"\n"` (route.ts line 412). -/
def ollamaPrompt (messages : List ChatMessage) (systemPrompt : String) : String :=
  joinSep "\n" (ollamaPromptLines messages systemPrompt)

/-- The parsed POST body (`ChatRequest` in route.ts lines 9-15).
`messages = none` models a missing or non-array `messages` field. -/
structure ChatRequest where
  messages : Option (List ChatMessage)
  jobDescription : Option String
  interviewTypes : Option (List String)
  difficulty : Option String
  duration : Option Nat
deriving DecidableEq, Repr

/-- The outcome of the POST handler's synchronous control flow, up to the
point where an upstream HTTP call would be issued: `upstream p sp msgs`
records that the adapter for `p` is invoked with system prompt `sp` and
the caller's message history `msgs`; the error constructors carry the JSON
error body's `error` string and the HTTP status. -/
inductive PostResult where
  | clientError (error : String) (status : Nat)
  | configError (error : String) (status : Nat)
  | upstream (provider : Provider) (systemPrompt : String) (messages : List ChatMessage)
deriving DecidableEq, Repr

/-- The error body returned when no credential is configured
(route.ts lines 370-376). -/
def noKeysMessage : String :=
  "No API keys configured. Set OPENAI_API_KEY, ANTHROPIC_API_KEY, or HUGGINGFACE_API_KEY"

/-- The control flow of `POST` (route.ts lines 359-399): validate the
messages array, resolve the provider, fail fast on a missing credential,
otherwise synthesize the system prompt and dispatch to the provider's
adapter. -/
def postHandler (env : Env) (req : ChatRequest) : PostResult :=
  match req.messages with
  | Option.none => .clientError "messages array is required" 400
  | some msgs =>
    match detectProvider env with
    | .none => .configError noKeysMessage 500
    | p =>
      .upstream p
        (getSystemPrompt req.jobDescription req.interviewTypes req.difficulty req.duration)
        msgs

/-- The `availableProviders` object of the GET health probe
(route.ts lines 465-469): it has exactly these three fields — the route
reports no flag for Ollama. -/
structure AvailableProviders where
  openai : Bool
  anthropic : Bool
  huggingface : Bool
deriving DecidableEq, Repr

/-- The GET health-probe response body (route.ts lines 460-471). -/
structure HealthResponse where
  status : String
  provider : String
  availableProviders : AvailableProviders
deriving DecidableEq, Repr

/-- `provider || "none"`: the resolved provider's wire name, `"none"` for
`null`. -/
def providerName : Provider → String
  | .openai => "openai"
  | .anthropic => "anthropic"
  | .ollama => "ollama"
  | .huggingface => "huggingface"
  | .none => "none"

/-- `GET` (route.ts lines 460-471). -/
def getHandler (env : Env) : HealthResponse :=
  { status := "ok"
  , provider := providerName (detectProvider env)
  , availableProviders :=
    { openai := present env.openaiKey
    , anthropic := present env.anthropicKey
    , huggingface := present env.huggingfaceKey } }

/-- JS `text.split("\n")` on a character list: the segments between
newline characters, keeping empty segments (`"".split` gives `[""]`). -/
def splitNl : List Char → List (List Char)
  | [] => [[]]
  | c :: rest =>
    if c = '\n' then [] :: splitNl rest
    else
      match splitNl rest with
      | l :: ls => (c :: l) :: ls
      | [] => [[c]]

/-- Strip a fixed leading character sequence, returning the remainder:
`dropLead p cs = some rest` iff `cs = p ++ rest`.  Models
`line.startsWith(p)` followed by `line.slice(p.length)`. -/
def dropLead : List Char → List Char → Option (List Char)
  | [], cs => some cs
  | _ :: _, [] => Option.none
  | p :: ps, c :: cs => if c = p then dropLead ps cs else Option.none

/-- A JSON value as produced by `JSON.parse`.  Number tokens are kept as
their source text (the gateway never looks inside a number), and object
fields are kept in source order (JS keeps the last duplicate key, which
`lookupLast` below reproduces). -/
inductive Json where
  | null
  | bool (b : Bool)
  | num (raw : List Char)
  | str (s : List Char)
  | arr (elems : List Json)
  | obj (fields : List (List Char × Json))
deriving Repr

/-- Last-wins lookup in a JSON object's field list. -/
def lookupLast (fields : List (List Char × Json)) (k : List Char) : Option Json :=
  match fields with
  | [] => Option.none
  | (k', v) :: rest =>
    match lookupLast rest k with
    | some r => some r
    | Option.none => if k' = k then some v else Option.none

/-- JS property access `v.k` (or `v?.k`): defined only on objects; every
other JSON value yields `undefined`. -/
def jsGetField (j : Json) (k : List Char) : Option Json :=
  match j with
  | .obj fields => lookupLast fields k
  | _ => Option.none

/-- JS index access `v[0]`: element 0 of an array, the first character of
a string (as a one-character string), field `"0"` of an object, otherwise
`undefined`. -/
def jsIndex0 (j : Json) : Option Json :=
  match j with
  | .arr (x :: _) => some x
  | .str (c :: _) => some (.str [c])
  | .obj fields => lookupLast fields ['0']
  | _ => Option.none

/-- Is there a nonzero digit in a number token's mantissa (the part before
any exponent marker)?  `0`, `-0`, `0.00`, `0e9` are the zero tokens. -/
def mantissaNonzero : List Char → Bool
  | [] => false
  | c :: rest =>
    if c = 'e' || c = 'E' then false
    else if c.isDigit && c ≠ '0' then true
    else mantissaNonzero rest

/-- JS truthiness of a `JSON.parse` result: `null`, `false`, zero and the
empty string are falsy; every object and array is truthy. -/
def jsTruthy (j : Json) : Bool :=
  match j with
  | .null => false
  | .bool b => b
  | .num raw => mantissaNonzero raw
  | .str s => !s.isEmpty
  | .arr _ => true
  | .obj _ => true

/-- The text enqueued by `controller.enqueue(encoder.encode(content))` for
a truthy `content`.  In every wire format the extracted field is a string;
the other cases are best-effort renderings of JS string coercion (number
tokens are kept verbatim rather than re-formatted as doubles, and array
rendering is approximated) — no theorem below depends on a non-string
`content`. -/
def jsToText (j : Json) : List Char :=
  match j with
  | .str s => s
  | .num raw => raw
  | .bool true => 't' :: 'r' :: 'u' :: 'e' :: []
  | .bool false => 'f' :: 'a' :: 'l' :: 's' :: 'e' :: []
  | .null => 'n' :: 'u' :: 'l' :: 'l' :: []
  | .arr _ => []
  | .obj _ => '[' :: 'o' :: 'b' :: 'j' :: 'e' :: 'c' :: 't' :: ' ' :: 'O' :: 'b' :: 'j' :: 'e' :: 'c' :: 't' :: ']' :: []

/-- JSON insignificant whitespace. -/
def jsonWs (c : Char) : Bool :=
  c = ' ' || c = '\t' || c = '\n' || c = '\r'

/-- Skip insignificant whitespace. -/
def skipWs : List Char → List Char
  | [] => []
  | c :: cs => if jsonWs c then skipWs cs else c :: cs

/-- Value of a hexadecimal digit. -/
def hexVal? (c : Char) : Option Nat :=
  if '0' ≤ c ∧ c ≤ '9' then some (c.toNat - '0'.toNat)
  else if 'a' ≤ c ∧ c ≤ 'f' then some (c.toNat - 'a'.toNat + 10)
  else if 'A' ≤ c ∧ c ≤ 'F' then some (c.toNat - 'A'.toNat + 10)
  else Option.none

/-- Translate a single-character escape (`\"`, `\\`, `\/`, `\b`, `\f`,
`\n`, `\r`, `\t`). -/
def unescape? (e : Char) : Option Char :=
  if e = '"' then some '"'
  else if e = '\\' then some '\\'
  else if e = '/' then some '/'
  else if e = 'b' then some '\x08'
  else if e = 'f' then some '\x0c'
  else if e = 'n' then some '\n'
  else if e = 'r' then some '\r'
  else if e = 't' then some '\t'
  else Option.none

/-- Parse the body of a JSON string literal (after the opening quote) up
to and including the closing quote, returning the decoded characters and
the remaining input.  Unescaped control characters are a parse error, as
in `JSON.parse`.  (`\uXXXX` escapes outside the scalar range are
approximated by `Char.ofNat`'s fallback; no claim involves them.) -/
def parseStringBody : List Char → Option (List Char × List Char)
  | [] => Option.none
  | c :: rest =>
    if c = '"' then some ([], rest)
    else if c = '\\' then
      match rest with
      | [] => Option.none
      | e :: rest2 =>
        if e = 'u' then
          match rest2 with
          | h1 :: h2 :: h3 :: h4 :: rest3 =>
            match hexVal? h1, hexVal? h2, hexVal? h3, hexVal? h4 with
            | some a, some b, some c2, some d =>
              (parseStringBody rest3).map
                (fun p => (Char.ofNat (((a * 16 + b) * 16 + c2) * 16 + d) :: p.1, p.2))
            | _, _, _, _ => Option.none
          | _ => Option.none
        else
          match unescape? e with
          | some c2 => (parseStringBody rest2).map (fun p => (c2 :: p.1, p.2))
          | Option.none => Option.none
    else if c.toNat < 32 then Option.none
    else (parseStringBody rest).map (fun p => (c :: p.1, p.2))

/-- The longest leading run of decimal digits, and the rest. -/
def digitSpan : List Char → List Char × List Char
  | [] => ([], [])
  | c :: rest =>
    if c.isDigit then
      let p := digitSpan rest
      (c :: p.1, p.2)
    else ([], c :: rest)

/-- JSON integer part after an optional sign: `0` or a nonzero digit
followed by digits. -/
def parseIntPart : List Char → Option (List Char × List Char)
  | [] => Option.none
  | c :: rest =>
    if c = '0' then some (['0'], rest)
    else if c.isDigit then
      let p := digitSpan rest
      some (c :: p.1, p.2)
    else Option.none

/-- Optional JSON fraction part. -/
def parseFracPart : List Char → Option (List Char × List Char)
  | [] => some ([], [])
  | c :: rest =>
    if c = '.' then
      let p := digitSpan rest
      if p.1.isEmpty then Option.none else some ('.' :: p.1, p.2)
    else some ([], c :: rest)

/-- Optional JSON exponent part. -/
def parseExpPart : List Char → Option (List Char × List Char)
  | [] => some ([], [])
  | c :: rest =>
    if c = 'e' || c = 'E' then
      match rest with
      | [] => Option.none
      | s :: rest2 =>
        if s = '+' || s = '-' then
          let p := digitSpan rest2
          if p.1.isEmpty then Option.none else some (c :: s :: p.1, p.2)
        else
          let p := digitSpan rest
          if p.1.isEmpty then Option.none else some (c :: p.1, p.2)
    else some ([], c :: rest)

/-- Parse a JSON number token, returning its source text. -/
def parseNumber (cs : List Char) : Option (List Char × List Char) :=
  match cs with
  | '-' :: rest => do
    let (i, r1) ← parseIntPart rest
    let (f, r2) ← parseFracPart r1
    let (e, r3) ← parseExpPart r2
    some ('-' :: (i ++ f ++ e), r3)
  | _ => do
    let (i, r1) ← parseIntPart cs
    let (f, r2) ← parseFracPart r1
    let (e, r3) ← parseExpPart r2
    some (i ++ f ++ e, r3)

mutual

/-- Parse one JSON value (leading whitespace already skipped).  The fuel
only decreases when descending into an array or object or stepping to the
next element/member, and each such step consumes at least one input
character, so the fuel `2 * length + 2` supplied by `parseJsonChars` is
ample for every parsable input. -/
def parseValue : Nat → List Char → Option (Json × List Char)
  | 0, _ => Option.none
  | fuel + 1, cs =>
    match cs with
    | 'n' :: 'u' :: 'l' :: 'l' :: rest => some (.null, rest)
    | 't' :: 'r' :: 'u' :: 'e' :: rest => some (.bool true, rest)
    | 'f' :: 'a' :: 'l' :: 's' :: 'e' :: rest => some (.bool false, rest)
    | '"' :: rest => (parseStringBody rest).map (fun p => (.str p.1, p.2))
    | '[' :: rest =>
      match skipWs rest with
      | ']' :: r2 => some (.arr [], r2)
      | r => parseElems fuel r []
    | '{' :: rest =>
      match skipWs rest with
      | '}' :: r2 => some (.obj [], r2)
      | r => parseMembers fuel r []
    | _ => (parseNumber cs).map (fun p => (.num p.1, p.2))
termination_by structural fuel => fuel

/-- Parse the elements of a non-empty JSON array body. -/
def parseElems : Nat → List Char → List Json → Option (Json × List Char)
  | 0, _, _ => Option.none
  | fuel + 1, cs, acc => do
    let (v, r) ← parseValue fuel (skipWs cs)
    match skipWs r with
    | ',' :: r2 => parseElems fuel r2 (v :: acc)
    | ']' :: r2 => some (.arr (v :: acc).reverse, r2)
    | _ => Option.none

/-- Parse the members of a non-empty JSON object body. -/
def parseMembers : Nat → List Char → List (List Char × Json) → Option (Json × List Char)
  | 0, _, _ => Option.none
  | fuel + 1, cs, acc =>
    match skipWs cs with
    | '"' :: rest => do
      let (k, r1) ← parseStringBody rest
      match skipWs r1 with
      | ':' :: r2 => do
        let (v, r3) ← parseValue fuel (skipWs r2)
        match skipWs r3 with
        | ',' :: r4 => parseMembers fuel r4 ((k, v) :: acc)
        | '}' :: r4 => some (.obj ((k, v) :: acc).reverse, r4)
        | _ => Option.none
      | _ => Option.none
    | _ => Option.none

end

/-- `JSON.parse` on a character list: a single value surrounded by
optional whitespace; anything else (including the empty input) throws,
modelled as `none`. -/
def parseJsonChars (cs : List Char) : Option Json :=
  match parseValue (2 * cs.length + 2) (skipWs cs) with
  | some (v, rest) => if (skipWs rest).isEmpty then some v else Option.none
  | Option.none => Option.none

/-- `"data: "`, the SSE data-line marker tested by
`line.startsWith("data: ")`. -/
def dataMarker : List Char :=
  'd' :: 'a' :: 't' :: 'a' :: ':' :: ' ' :: []

/-- `"[DONE]"`, the OpenAI stream sentinel. -/
def doneSentinel : List Char :=
  '[' :: 'D' :: 'O' :: 'N' :: 'E' :: ']' :: []

/-- The non-blank lines of one decoded upstream chunk:
`text.split("\n").filter((line) => line.trim() !== "")`. -/
def chunkLines (chunk : List Char) : List (List Char) :=
  (splitNl chunk).filter (fun l => !(jsTrim l).isEmpty)

/-- What one truthiness-guarded `controller.enqueue` emits for an
extracted `content` value (`undefined` and falsy values emit nothing). -/
def emitContent (content : Option Json) : List (List Char) :=
  match content with
  | some v => if jsTruthy v then [jsToText v] else []
  | Option.none => []

/-- `parsed.choices?.[0]?.delta?.content` (route.ts line 240). -/
def openAIContent (parsed : Json) : Option Json := do
  let choices ← jsGetField parsed ('c' :: 'h' :: 'o' :: 'i' :: 'c' :: 'e' :: 's' :: [])
  let first ← jsIndex0 choices
  let delta ← jsGetField first ('d' :: 'e' :: 'l' :: 't' :: 'a' :: [])
  jsGetField delta ('c' :: 'o' :: 'n' :: 't' :: 'e' :: 'n' :: 't' :: [])

/-- One invocation of the OpenAI transform callback over the non-blank
lines of a chunk (route.ts lines 231-245).  On the `[DONE]` sentinel the
callback `return`s, abandoning the remaining lines of THIS chunk only;
a malformed JSON payload is skipped by the empty `catch`. -/
def openAILines : List (List Char) → List (List Char)
  | [] => []
  | line :: rest =>
    match dropLead dataMarker line with
    | some data =>
      if data = doneSentinel then []
      else
        match parseJsonChars data with
        | some parsed => emitContent (openAIContent parsed) ++ openAILines rest
        | Option.none => openAILines rest
    | Option.none => openAILines rest

/-- The OpenAI transform applied to one decoded chunk. -/
def openAIChunk (chunk : List Char) : List (List Char) :=
  openAILines (chunkLines chunk)

/-- `parsed.delta?.text` (route.ts line 298). -/
def anthropicContent (parsed : Json) : Option Json := do
  let delta ← jsGetField parsed ('d' :: 'e' :: 'l' :: 't' :: 'a' :: [])
  jsGetField delta ('t' :: 'e' :: 'x' :: 't' :: [])

/-- What the Anthropic transform emits for one non-blank line
(route.ts lines 292-302): only `data: ` lines whose JSON parses and has
`type === "content_block_delta"` contribute their `delta.text`. -/
def anthropicLine (line : List Char) : List (List Char) :=
  match dropLead dataMarker line with
  | some data =>
    match parseJsonChars data with
    | some parsed =>
      match jsGetField parsed ('t' :: 'y' :: 'p' :: 'e' :: []) with
      | some (.str t) =>
        if t = String.toList "content_block_delta" then
          emitContent (anthropicContent parsed)
        else []
      | _ => []
    | Option.none => []
  | Option.none => []

/-- One invocation of the Anthropic transform callback on a chunk's
non-blank lines. -/
def anthropicLines : List (List Char) → List (List Char)
  | [] => []
  | line :: rest => anthropicLine line ++ anthropicLines rest

/-- The Anthropic transform applied to one decoded chunk. -/
def anthropicChunk (chunk : List Char) : List (List Char) :=
  anthropicLines (chunkLines chunk)

/-- `parsed.choices?.[0]?.text` (route.ts line 443). -/
def ollamaContent (parsed : Json) : Option Json := do
  let choices ← jsGetField parsed ('c' :: 'h' :: 'o' :: 'i' :: 'c' :: 'e' :: 's' :: [])
  let first ← jsIndex0 choices
  jsGetField first ('t' :: 'e' :: 'x' :: 't' :: [])

/-- What the Ollama transform emits for one non-blank line
(route.ts lines 440-446): every line is `JSON.parse`d, a failure being
skipped by the empty `catch`. -/
def ollamaLine (line : List Char) : List (List Char) :=
  match parseJsonChars line with
  | some parsed => emitContent (ollamaContent parsed)
  | Option.none => []

/-- One invocation of the Ollama transform callback on a chunk's
non-blank lines. -/
def ollamaLines : List (List Char) → List (List Char)
  | [] => []
  | line :: rest => ollamaLine line ++ ollamaLines rest

/-- The Ollama transform applied to one decoded chunk. -/
def ollamaChunk (chunk : List Char) : List (List Char) :=
  ollamaLines (chunkLines chunk)

/-- Concatenate a list of emitted texts. -/
def flat : List (List Char) → List Char
  | [] => []
  | x :: rest => x ++ flat rest

/-- The concatenation, in emission order, of everything a per-chunk
transform emits over a sequence of decoded upstream chunks.  (The byte
level — `TextDecoder.decode` on each chunk — is modelled as the identity
on already-decoded text; chunk boundaries remain arbitrary.) -/
def concatOut (chunkFn : List Char → List (List Char)) : List (List Char) → List Char
  | [] => []
  | chunk :: rest => flat (chunkFn chunk) ++ concatOut chunkFn rest

/-- The full OpenAI stream transform output over a chunk sequence. -/
def openAIOut (chunks : List (List Char)) : List Char :=
  concatOut openAIChunk chunks

/-- The full Anthropic stream transform output over a chunk sequence. -/
def anthropicOut (chunks : List (List Char)) : List Char :=
  concatOut anthropicChunk chunks

/-- The full Ollama stream transform output over a chunk sequence. -/
def ollamaOut (chunks : List (List Char)) : List Char :=
  concatOut ollamaChunk chunks

/-- A character that serializes into a JSON string literal unchanged: not
a quote, not a backslash, not a control character.  Such characters make
up the content of a well-formed frame below. -/
def safeChar (c : Char) : Bool :=
  c ≠ '"' && c ≠ '\\' && 32 ≤ c.toNat

/-- The JSON payload of a well-formed OpenAI content event carrying the
text `s`: `{"choices":[{"delta":{"content":"s"}}]}`. -/
def openAIData (s : List Char) : List Char :=
  String.toList "\x7b\"choices\":[\x7b\"delta\":\x7b\"content\":\"" ++ (s ++ String.toList "\"\x7d\x7d]\x7d")

/-- A well-formed OpenAI SSE frame: a `data: ` line carrying a content
delta, followed by the SSE blank line. -/
def openAIFrame (s : List Char) : List Char :=
  String.toList "data: " ++ (openAIData s ++ ('\n' :: '\n' :: []))

/-- The parsed form of `openAIData s`. -/
def openAIJson (s : List Char) : Json :=
  .obj [(String.toList "choices",
    .arr [.obj [(String.toList "delta", .obj [(String.toList "content", .str s)])]])]

/-- The JSON payload of a well-formed Anthropic `content_block_delta`
event carrying the text `s`. -/
def anthropicData (s : List Char) : List Char :=
  String.toList "\x7b\"type\":\"content_block_delta\",\"delta\":\x7b\"text\":\"" ++
    (s ++ String.toList "\"\x7d\x7d")

/-- A well-formed Anthropic SSE frame: the `event:` line, the `data:`
line, and the SSE blank line. -/
def anthropicFrame (s : List Char) : List Char :=
  String.toList "event: content_block_delta\ndata: " ++ (anthropicData s ++ ('\n' :: '\n' :: []))

/-- The parsed form of `anthropicData s`. -/
def anthropicJson (s : List Char) : Json :=
  .obj [(String.toList "type", .str (String.toList "content_block_delta")),
        (String.toList "delta", .obj [(String.toList "text", .str s)])]

/-- The JSON payload of a well-formed Ollama NDJSON completion fragment
carrying the text `s`: `{"choices":[{"text":"s"}]}`. -/
def ollamaData (s : List Char) : List Char :=
  String.toList "\x7b\"choices\":[\x7b\"text\":\"" ++ (s ++ String.toList "\"\x7d]\x7d")

/-- A well-formed Ollama NDJSON frame: one JSON line. -/
def ollamaFrame (s : List Char) : List Char :=
  ollamaData s ++ ('\n' :: [])

/-- The parsed form of `ollamaData s`. -/
def ollamaJson (s : List Char) : Json :=
  .obj [(String.toList "choices", .arr [.obj [(String.toList "text", .str s)]])]

/-- The order in which route.ts lines 88-145 test the interview-type
tags, i.e. the fixed order in which the instructional blocks are
emitted. -/
def canonicalTypeOrder : List String :=
  ["coding", "behavioral", "technical", "multiple-choice", "hr", "hiring-manager"]

/-- The instructional block belonging to one recognized type tag. -/
def typeBlock (t : String) (difficulty : Option String) : String :=
  if t = "coding" then codingInstructions difficulty
  else if t = "behavioral" then behavioralInstructions
  else if t = "technical" then technicalInstructions difficulty
  else if t = "multiple-choice" then multipleChoiceInstructions
  else if t = "hr" then hrInstructions
  else if t = "hiring-manager" then hiringManagerInstructions
  else ""

/-- Concatenation of a list of text blocks. -/
def concatBlocks : List String → String
  | [] => ""
  | b :: rest => b ++ concatBlocks rest

/-! Helper lemmas about string concatenation. -/

theorem strAppend_empty (s : String) : s ++ "" = s := by
  cases s with
  | mk data => show String.mk (data ++ []) = String.mk data; rw [List.append_nil]

theorem strAppend_assoc (a b c : String) : a ++ b ++ c = a ++ (b ++ c) := by
  cases a with
  | mk da =>
    cases b with
    | mk db =>
      cases c with
      | mk dc => exact congrArg String.mk (List.append_assoc da db dc)

/-! Theorems about the claims C1-C10. -/

/-- C1: provider resolution returns exactly one provider following the
fixed precedence openai > anthropic > ollama > huggingface: `openai`
whenever OPENAI_API_KEY is present, otherwise `anthropic` whenever
ANTHROPIC_API_KEY is present, otherwise `ollama` whenever OLLAMA_API_KEY
is present, otherwise `huggingface` whenever HUGGINGFACE_API_KEY is
present, and `none` when no credential is present. -/
theorem detectProvider_precedence (env : Env) :
    (present env.openaiKey = true → detectProvider env = .openai) ∧
    (present env.openaiKey = false → present env.anthropicKey = true →
      detectProvider env = .anthropic) ∧
    (present env.openaiKey = false → present env.anthropicKey = false →
      present env.ollamaKey = true → detectProvider env = .ollama) ∧
    (present env.openaiKey = false → present env.anthropicKey = false →
      present env.ollamaKey = false → present env.huggingfaceKey = true →
      detectProvider env = .huggingface) ∧
    (present env.openaiKey = false → present env.anthropicKey = false →
      present env.ollamaKey = false → present env.huggingfaceKey = false →
      detectProvider env = .none) := by
  unfold detectProvider
  refine ⟨?_, ?_, ?_, ?_, ?_⟩ <;> intros <;> simp_all

/-- Witness for C1 on the spec's four test vectors: all four credentials,
anthropic+ollama only, ollama only, none. -/
theorem detectProvider_precedence_witness :
    detectProvider ⟨some "k", some "k", some "k", some "k"⟩ = .openai ∧
    detectProvider ⟨Option.none, some "k", some "k", Option.none⟩ = .anthropic ∧
    detectProvider ⟨Option.none, Option.none, some "k", Option.none⟩ = .ollama ∧
    detectProvider ⟨Option.none, Option.none, Option.none, some "k"⟩ = .huggingface ∧
    detectProvider ⟨Option.none, Option.none, Option.none, Option.none⟩ = .none :=
  ⟨(detectProvider_precedence _).1 (by decide),
   (detectProvider_precedence _).2.1 (by decide) (by decide),
   (detectProvider_precedence _).2.2.1 (by decide) (by decide) (by decide),
   (detectProvider_precedence _).2.2.2.1 (by decide) (by decide) (by decide) (by decide),
   (detectProvider_precedence _).2.2.2.2 (by decide) (by decide) (by decide) (by decide)⟩

/-- C7: `getSystemPrompt` with an unset difficulty returns a prompt
identical to `difficulty = "intermediate"`, for every job description,
interview-type list and duration. -/
theorem getSystemPrompt_default_difficulty (jd : Option String)
    (its : Option (List String)) (dur : Option Nat) :
    getSystemPrompt jd its Option.none dur = getSystemPrompt jd its (some "intermediate") dur :=
  rfl

/-- C10: the health probe's `availableProviders` object has exactly the
fields openai/anthropic/huggingface (there is no ollama flag — see the
`AvailableProviders` structure modelling route.ts lines 465-469), so in an
environment where only OLLAMA_API_KEY is present the probe reports
`provider = "ollama"` while every availability flag is `false`. -/
theorem getHandler_ollama_only (env : Env)
    (h1 : present env.openaiKey = false) (h2 : present env.anthropicKey = false)
    (h3 : present env.huggingfaceKey = false) (h4 : present env.ollamaKey = true) :
    getHandler env =
      { status := "ok", provider := "ollama"
      , availableProviders := { openai := false, anthropic := false, huggingface := false } } := by
  unfold getHandler detectProvider
  rw [h1, h2, h3, h4]
  simp [providerName]

/-- Witness for C10 at a concrete environment holding only an Ollama
key. -/
theorem getHandler_ollama_only_witness :
    getHandler ⟨Option.none, Option.none, some "k", Option.none⟩ =
      { status := "ok", provider := "ollama"
      , availableProviders := { openai := false, anthropic := false, huggingface := false } } :=
  getHandler_ollama_only _ (by decide) (by decide) (by decide) (by decide)

set_option maxRecDepth 100000 in
/-- C9: with a valid messages array, the POST handler fails fast with the
HTTP-500 configuration error — and reaches no upstream dispatch — exactly
when no provider credential is present; the error body names
OPENAI_API_KEY, ANTHROPIC_API_KEY and HUGGINGFACE_API_KEY; with at least
one credential present the configuration error is never returned. -/
theorem postHandler_no_credentials (env : Env) (req : ChatRequest)
    (msgs : List ChatMessage) (hm : req.messages = some msgs) :
    (detectProvider env = .none →
      postHandler env req = .configError noKeysMessage 500 ∧
      ∀ p sp ms, postHandler env req ≠ .upstream p sp ms) ∧
    (String.toList "OPENAI_API_KEY" <:+: noKeysMessage.toList ∧
     String.toList "ANTHROPIC_API_KEY" <:+: noKeysMessage.toList ∧
     String.toList "HUGGINGFACE_API_KEY" <:+: noKeysMessage.toList) ∧
    (detectProvider env ≠ .none → ∀ e s, postHandler env req ≠ .configError e s) := by
  refine ⟨?_, ⟨by decide, by decide, by decide⟩, ?_⟩
  · intro h
    unfold postHandler
    rw [hm, h]
    exact ⟨rfl, fun p sp ms => by simp⟩
  · intro h e s
    unfold postHandler
    rw [hm]
    cases hp : detectProvider env <;> simp_all

/-- Witness for C9: a credential-free environment yields the 500
configuration error; an environment holding an OpenAI key never does. -/
theorem postHandler_no_credentials_witness :
    postHandler ⟨Option.none, Option.none, Option.none, Option.none⟩
        ⟨some [], Option.none, Option.none, Option.none, Option.none⟩ =
      .configError noKeysMessage 500 ∧
    ∀ e s,
      postHandler ⟨some "k", Option.none, Option.none, Option.none⟩
          ⟨some [], Option.none, Option.none, Option.none, Option.none⟩ ≠
        .configError e s :=
  ⟨((postHandler_no_credentials _ _ [] rfl).1 (by decide)).1,
   (postHandler_no_credentials _ _ [] rfl).2.2 (by decide)⟩

/-- Counterexample to C6 as stated: for a history holding a system-role
message, the Anthropic payload does not keep the original role — the
system role is relabelled `user` (route.ts line 261). -/
theorem anthropic_relabels_system_role :
    anthropicMessages [{ role := Role.system, content := "x" }] =
      [{ role := Role.user, content := "x" }] ∧
    Role.user ≠ Role.system := by
  exact ⟨rfl, by decide⟩

/-- C6 (amended): no adapter mutates contents or order, and the
synthesized system message is the only addition: the OpenAI payload is
exactly the system message prepended to the unchanged history; the
Anthropic payload preserves every content in order and equals the history
exactly whenever it holds no system-role message; the Ollama prompt lines
are the system line followed by one `User:`/`Assistant:`-labelled line per
message in order — but system roles are relabelled (`user` for Anthropic,
`Assistant` for Ollama). -/
theorem adapters_preserve_history :
    (∀ msgs sys, openAIMessages msgs sys = { role := Role.system, content := sys } :: msgs) ∧
    (∀ msgs, (anthropicMessages msgs).map ChatMessage.content = msgs.map ChatMessage.content) ∧
    (∀ msgs, (∀ m ∈ msgs, m.role ≠ Role.system) → anthropicMessages msgs = msgs) ∧
    (∀ msgs sys, ollamaPromptLines msgs sys =
      ("System: " ++ sys) ::
        msgs.map (fun m => (if m.role = Role.user then "User" else "Assistant") ++ ": " ++ m.content)) := by
  refine ⟨fun _ _ => rfl, ?_, ?_, fun _ _ => rfl⟩
  · intro msgs
    simp [anthropicMessages]
  · intro msgs h
    induction msgs with
    | nil => rfl
    | cons m rest ih =>
      have hm : m.role ≠ Role.system := h m (List.mem_cons_self m rest)
      have hrest : ∀ x ∈ rest, x.role ≠ Role.system := fun x hx => h x (List.mem_cons_of_mem m hx)
      cases m with
      | mk r c =>
        cases r with
        | system => exact absurd rfl hm
        | user => simp [anthropicMessages] at ih ⊢; exact ih hrest
        | assistant => simp [anthropicMessages] at ih ⊢; exact ih hrest

/-- Witness for C6's amended theorem on a concrete system-free history. -/
theorem adapters_preserve_history_witness :
    anthropicMessages [{ role := Role.user, content := "a" }, { role := Role.assistant, content := "b" }] =
      [{ role := Role.user, content := "a" }, { role := Role.assistant, content := "b" }] :=
  adapters_preserve_history.2.2.1 _ (by decide)

set_option maxRecDepth 100000 in
/-- Counterexample to C4 as stated: for `interviewTypes =
["behavioral", "coding"]` the synthesized block sequence is the coding
block followed by the behavioral block — not the selection order, under
which the behavioral block would come first. -/
theorem typeInstructions_not_selection_order :
    typeInstructions ["behavioral", "coding"] Option.none =
      codingInstructions Option.none ++ behavioralInstructions ∧
    typeInstructions ["behavioral", "coding"] Option.none ≠
      behavioralInstructions ++ codingInstructions Option.none := by
  constructor
  · decide
  · decide

/-- C4 (amended): the type-specific instructional blocks appear
concatenated in the fixed canonical order coding, behavioral, technical,
multiple-choice, hr, hiring-manager — the order of the `includes` tests in
route.ts lines 88-145 — independently of the order in which the caller
selected the types. -/
theorem typeInstructions_canonical_order (types : List String) (difficulty : Option String) :
    typeInstructions types difficulty =
      concatBlocks ((canonicalTypeOrder.filter (fun t => types.contains t)).map
        (fun t => typeBlock t difficulty)) := by
  unfold canonicalTypeOrder
  by_cases h1 : "coding" ∈ types <;> by_cases h2 : "behavioral" ∈ types <;>
    by_cases h3 : "technical" ∈ types <;> by_cases h4 : "multiple-choice" ∈ types <;>
    by_cases h5 : "hr" ∈ types <;> by_cases h6 : "hiring-manager" ∈ types <;>
    simp [typeInstructions, typeBlock, concatBlocks, h1, h2, h3, h4, h5, h6,
      strAppend_empty, strAppend_assoc]

theorem difficultyInstructions_default (d : String) (h1 : d ≠ "beginner") (h3 : d ≠ "advanced") :
    difficultyInstructions (some d) = difficultyInstructions Option.none := by
  unfold difficultyInstructions
  rw [if_neg (by simp [h1]), if_neg (by simp [h3])]
  rfl

theorem codingInstructions_default (d : String) (h1 : d ≠ "beginner") (h3 : d ≠ "advanced") :
    codingInstructions (some d) = codingInstructions Option.none := by
  unfold codingInstructions
  rw [if_neg (by simp [h1]), if_neg (by simp [h3])]
  rfl

theorem technicalInstructions_default (d : String) (h3 : d ≠ "advanced") :
    technicalInstructions (some d) = technicalInstructions Option.none := by
  unfold technicalInstructions
  rw [if_neg (by simp [h3])]
  rfl

theorem typeInstructions_default (ts : List String) (d : String)
    (h1 : d ≠ "beginner") (h3 : d ≠ "advanced") :
    typeInstructions ts (some d) = typeInstructions ts Option.none := by
  unfold typeInstructions
  rw [codingInstructions_default d h1 h3, technicalInstructions_default d h3]

set_option maxRecDepth 100000 in
/-- Counterexample to C8 as stated: the prompt for the unrecognized
difficulty `"expert"` is not the `"intermediate"` prompt — the opening
line's difficulty descriptor differs. -/
theorem unrecognized_difficulty_prompt_differs :
    getSystemPrompt Option.none Option.none (some "expert") Option.none ≠
      getSystemPrompt Option.none Option.none (some "intermediate") Option.none := by
  decide

/-- C8 (amended): for a non-empty difficulty outside
{beginner, intermediate, advanced}, the difficulty-instruction block and
the difficulty-dependent branches of the type blocks fall back to the
intermediate behaviour, but the descriptor in the opening line falls back
to the generic `"mid-level difficulty"` instead of the intermediate
description — the prompt is the intermediate prompt with exactly that
descriptor replaced.  (The empty string, also outside the set, is falsy
and behaves fully as `"intermediate"`.) -/
theorem getSystemPrompt_unrecognized_difficulty (jd : Option String)
    (its : Option (List String)) (dur : Option Nat) (d : String)
    (h1 : d ≠ "beginner") (h2 : d ≠ "intermediate") (h3 : d ≠ "advanced") (h4 : d ≠ "") :
    getSystemPrompt jd its (some d) dur =
      promptTemplate (sessionLength dur) "mid-level difficulty" (selectedTypesLine its)
        (contextSection jd) (difficultyInstructions (some "intermediate"))
        (typeInstructions (its.getD []) (some "intermediate"))
        (hybridInstructions (its.getD [])) := by
  unfold getSystemPrompt
  rw [show jsOr (some d) "intermediate" = d from by simp [jsOr, h4]]
  rw [show difficultyDescriptions d = Option.none from by
    simp [difficultyDescriptions, h1, h2, h3]]
  rw [difficultyInstructions_default d h1 h3, typeInstructions_default _ d h1 h3]
  rfl

/-- Witness for C8's amended theorem at `difficulty = "expert"`. -/
theorem getSystemPrompt_unrecognized_difficulty_witness :
    ("expert" ≠ "beginner" ∧ "expert" ≠ "intermediate" ∧
      "expert" ≠ "advanced" ∧ "expert" ≠ "") ∧
    getSystemPrompt Option.none Option.none (some "expert") Option.none =
      promptTemplate (sessionLength Option.none) "mid-level difficulty"
        (selectedTypesLine Option.none) (contextSection Option.none)
        (difficultyInstructions (some "intermediate"))
        (typeInstructions [] (some "intermediate")) (hybridInstructions []) :=
  ⟨⟨by decide, by decide, by decide, by decide⟩,
   getSystemPrompt_unrecognized_difficulty Option.none Option.none Option.none "expert"
     (by decide) (by decide) (by decide) (by decide)⟩

/-! Helper lemmas for the stream transforms. -/

theorem flat_append (a b : List (List Char)) : flat (a ++ b) = flat a ++ flat b := by
  induction a with
  | nil => rfl
  | cons x rest ih => simp [flat, ih]

theorem concatOut_append (f : List Char → List (List Char)) (xs ys : List (List Char)) :
    concatOut f (xs ++ ys) = concatOut f xs ++ concatOut f ys := by
  induction xs with
  | nil => rfl
  | cons x rest ih => simp [concatOut, ih]

theorem splitNl_no_nl (a : List Char) (ha : '\n' ∉ a) : splitNl a = [a] := by
  induction a with
  | nil => rfl
  | cons c rest ih =>
    have hc : c ≠ '\n' := fun h => ha (h ▸ List.mem_cons_self c rest)
    have hrest : '\n' ∉ rest := fun h => ha (List.mem_cons_of_mem c h)
    simp [splitNl, hc, ih hrest]

theorem splitNl_append_nl (a : List Char) (ha : '\n' ∉ a) (rest : List Char) :
    splitNl (a ++ '\n' :: rest) = a :: splitNl rest := by
  induction a with
  | nil => simp [splitNl]
  | cons c tl ih =>
    have hc : c ≠ '\n' := fun h => ha (h ▸ List.mem_cons_self c tl)
    have htl : '\n' ∉ tl := fun h => ha (List.mem_cons_of_mem c h)
    simp [splitNl, hc, ih htl]

theorem isEmptyFalse_of_ne_nil (l : List Char) (h : l ≠ []) : l.isEmpty = false := by
  cases l with
  | nil => exact absurd rfl h
  | cons a b => rfl

theorem jsTrim_head_not_ws (c : Char) (cs : List Char) (hc : jsWhitespace c = false) :
    (jsTrim (c :: cs)).isEmpty = false := by
  unfold jsTrim
  rw [List.dropWhile_cons, hc]
  simp only [Bool.false_eq_true, if_false]
  apply isEmptyFalse_of_ne_nil
  rw [ne_eq, List.reverse_eq_nil_iff]
  intro hnil
  have hco := List.dropWhile_eq_nil_iff.mp hnil c (by simp)
  rw [hc] at hco
  exact absurd hco (by decide)

theorem dropLead_append (p rest : List Char) : dropLead p (p ++ rest) = some rest := by
  induction p with
  | nil => rfl
  | cons c tl ih => simp [dropLead, ih]

theorem skipWs_cons (c : Char) (cs : List Char) (hc : jsonWs c = false) :
    skipWs (c :: cs) = c :: cs := by
  simp [skipWs, hc]

theorem parseStringBody_safe (s : List Char) (hs : s.all safeChar = true) (rest : List Char) :
    parseStringBody (s ++ '"' :: rest) = some (s, rest) := by
  induction s with
  | nil =>
    unfold parseStringBody
    simp
  | cons c cs ih =>
    simp only [List.all_cons, Bool.and_eq_true] at hs
    obtain ⟨hc, hcs⟩ := hs
    simp only [safeChar, Bool.and_eq_true, decide_eq_true_eq] at hc
    obtain ⟨⟨hq, hb⟩, hcontrol⟩ := hc
    have hlt : ¬ c.toNat < 32 := Nat.not_lt.mpr hcontrol
    rw [List.cons_append]
    unfold parseStringBody
    rw [if_neg hq, if_neg hb, if_neg hlt, ih hcs]
    rfl


theorem parseValue_str (fuel : Nat) (s : List Char) (hs : s.all safeChar = true) (rest : List Char) :
    parseValue (fuel + 1) ('"' :: (s ++ '"' :: rest)) = some (.str s, rest) := by
  have h := parseStringBody_safe s hs rest
  show (parseStringBody (s ++ '"' :: rest)).map (fun p => (Json.str p.1, p.2)) = _
  rw [h]
  rfl

theorem parseMembers_key (fuel : Nat) (Y : List Char) (acc : List (List Char × Json)) :
    parseMembers (fuel + 1) ('"' :: Y) acc =
      Option.bind (parseStringBody Y) (fun p =>
        match skipWs p.2 with
        | ':' :: r2 =>
          Option.bind (parseValue fuel (skipWs r2)) (fun q =>
            match skipWs q.2 with
            | ',' :: r4 => parseMembers fuel r4 ((p.1, q.1) :: acc)
            | '}' :: r4 => some (.obj ((p.1, q.1) :: acc).reverse, r4)
            | _ => Option.none)
        | _ => Option.none) := rfl

theorem parseMembers_step (fuel : Nat) (K : List Char) (hK : K.all safeChar = true)
    (c : Char) (hc : jsonWs c = false) (vs : List Char) (v : Json)
    (acc : List (List Char × Json)) (rest : List Char)
    (hv : parseValue fuel (c :: vs) = some (v, '}' :: rest)) :
    parseMembers (fuel + 1) ('"' :: (K ++ '"' :: ':' :: c :: vs)) acc =
      some (.obj ((K, v) :: acc).reverse, rest) := by
  rw [parseMembers_key, parseStringBody_safe K hK]
  show Option.bind (parseValue fuel (skipWs (c :: vs))) (fun q =>
      match skipWs q.2 with
      | ',' :: r4 => parseMembers fuel r4 ((K, q.1) :: acc)
      | '}' :: r4 => some (Json.obj ((K, q.1) :: acc).reverse, r4)
      | _ => Option.none) = _
  rw [skipWs_cons c vs hc, hv]
  rfl

theorem parseValue_obj1 (fuel : Nat) (K : List Char) (hK : K.all safeChar = true)
    (c : Char) (hc : jsonWs c = false) (vs : List Char) (v : Json) (rest : List Char)
    (hv : parseValue fuel (c :: vs) = some (v, '}' :: rest)) :
    parseValue (fuel + 2) ('{' :: '"' :: (K ++ '"' :: ':' :: c :: vs)) =
      some (.obj [(K, v)], rest) := by
  show parseMembers (fuel + 1) ('"' :: (K ++ '"' :: ':' :: c :: vs)) [] = _
  rw [parseMembers_step fuel K hK c hc vs v [] rest hv]
  rfl

theorem parseValue_arr1 (fuel : Nat) (vs : List Char) (v : Json) (rest : List Char)
    (hv : parseValue fuel ('{' :: vs) = some (v, ']' :: rest)) :
    parseValue (fuel + 2) ('[' :: '{' :: vs) = some (.arr [v], rest) := by
  show parseElems (fuel + 1) ('{' :: vs) [] = _
  show Option.bind (parseValue fuel (skipWs ('{' :: vs))) (fun p =>
      match skipWs p.2 with
      | ',' :: r2 => parseElems fuel r2 (p.1 :: [])
      | ']' :: r2 => some (.arr (p.1 :: []).reverse, r2)
      | _ => Option.none) = _
  rw [show skipWs ('{' :: vs) = '{' :: vs from rfl, hv]
  rfl

theorem parseMembers_strMember (fuel : Nat) (K S : List Char) (hK : K.all safeChar = true)
    (hS : S.all safeChar = true) (REST : List Char) (acc : List (List Char × Json)) :
    parseMembers (fuel + 2) ('"' :: (K ++ '"' :: ':' :: '"' :: (S ++ '"' :: ',' :: REST))) acc =
      parseMembers (fuel + 1) REST ((K, .str S) :: acc) := by
  rw [parseMembers_key (fuel + 1), parseStringBody_safe K hK]
  show Option.bind (parseValue (fuel + 1) (skipWs ('"' :: (S ++ '"' :: ',' :: REST)))) (fun q =>
      match skipWs q.2 with
      | ',' :: r4 => parseMembers (fuel + 1) r4 ((K, q.1) :: acc)
      | '}' :: r4 => some (Json.obj ((K, q.1) :: acc).reverse, r4)
      | _ => Option.none) = _
  rw [show skipWs ('"' :: (S ++ '"' :: ',' :: REST)) = '"' :: (S ++ '"' :: ',' :: REST) from rfl]
  rw [parseValue_str fuel S hS]
  rfl

theorem parseValue_openAIData (fuel : Nat) (s : List Char) (hs : s.all safeChar = true) :
    parseValue (fuel + 9) (openAIData s) = some (openAIJson s, []) := by
  have echars : openAIData s = '{' :: '"' :: (String.toList "choices" ++ '"' :: ':' ::
      '[' :: '{' :: '"' :: (String.toList "delta" ++ '"' :: ':' ::
      '{' :: '"' :: (String.toList "content" ++ '"' :: ':' ::
      '"' :: (s ++ '"' :: '}' :: '}' :: ']' :: '}' :: [])))) := rfl
  rw [echars]
  have hstr := parseValue_str fuel s hs ('}' :: '}' :: ']' :: '}' :: [])
  have hcontent := parseValue_obj1 (fuel + 1) (String.toList "content") (by decide)
    '"' (by decide) _ _ _ hstr
  have hdelta := parseValue_obj1 (fuel + 3) (String.toList "delta") (by decide)
    '{' (by decide) _ _ _ hcontent
  have harr := parseValue_arr1 (fuel + 5) _ _ _ hdelta
  have houter := parseValue_obj1 (fuel + 7) (String.toList "choices") (by decide)
    '[' (by decide) _ _ _ harr
  exact houter

theorem parseValue_anthropicData (fuel : Nat) (s : List Char) (hs : s.all safeChar = true) :
    parseValue (fuel + 6) (anthropicData s) = some (anthropicJson s, []) := by
  have echars : anthropicData s = '{' :: '"' :: (String.toList "type" ++ '"' :: ':' ::
      '"' :: (String.toList "content_block_delta" ++ '"' :: ',' ::
      '"' :: (String.toList "delta" ++ '"' :: ':' ::
      '{' :: '"' :: (String.toList "text" ++ '"' :: ':' ::
      '"' :: (s ++ '"' :: '}' :: '}' :: []))))) := rfl
  rw [echars]
  show parseMembers (fuel + 5) ('"' :: (String.toList "type" ++ '"' :: ':' ::
      '"' :: (String.toList "content_block_delta" ++ '"' :: ',' ::
      '"' :: (String.toList "delta" ++ '"' :: ':' ::
      '{' :: '"' :: (String.toList "text" ++ '"' :: ':' ::
      '"' :: (s ++ '"' :: '}' :: '}' :: [])))))) [] = _
  rw [parseMembers_strMember (fuel + 3) (String.toList "type")
    (String.toList "content_block_delta") (by decide) (by decide)]
  have hstr := parseValue_str fuel s hs ('}' :: '}' :: [])
  have htext := parseValue_obj1 (fuel + 1) (String.toList "text") (by decide)
    '"' (by decide) _ _ _ hstr
  rw [parseMembers_step (fuel + 3) (String.toList "delta") (by decide) '{' (by decide)
    _ _ _ _ htext]
  rfl

theorem parseValue_ollamaData (fuel : Nat) (s : List Char) (hs : s.all safeChar = true) :
    parseValue (fuel + 7) (ollamaData s) = some (ollamaJson s, []) := by
  have echars : ollamaData s = '{' :: '"' :: (String.toList "choices" ++ '"' :: ':' ::
      '[' :: '{' :: '"' :: (String.toList "text" ++ '"' :: ':' ::
      '"' :: (s ++ '"' :: '}' :: ']' :: '}' :: []))) := rfl
  rw [echars]
  have hstr := parseValue_str fuel s hs ('}' :: ']' :: '}' :: [])
  have htext := parseValue_obj1 (fuel + 1) (String.toList "text") (by decide)
    '"' (by decide) _ _ _ hstr
  have harr := parseValue_arr1 (fuel + 3) _ _ _ htext
  have houter := parseValue_obj1 (fuel + 5) (String.toList "choices") (by decide)
    '[' (by decide) _ _ _ harr
  exact houter

theorem parseJsonChars_openAIData (s : List Char) (hs : s.all safeChar = true) :
    parseJsonChars (openAIData s) = some (openAIJson s) := by
  have h1 : (String.toList "\x7b\"choices\":[\x7b\"delta\":\x7b\"content\":\"").length = 33 := rfl
  have h2 : (String.toList "\"\x7d\x7d]\x7d").length = 5 := rfl
  have hlen : (openAIData s).length = s.length + 38 := by
    simp [openAIData, List.length_append, h1, h2]
  have hfuel : 2 * (openAIData s).length + 2 = (2 * s.length + 69) + 9 := by
    rw [hlen]; omega
  unfold parseJsonChars
  rw [show skipWs (openAIData s) = openAIData s from rfl, hfuel,
    parseValue_openAIData (2 * s.length + 69) s hs]
  rfl

theorem parseJsonChars_anthropicData (s : List Char) (hs : s.all safeChar = true) :
    parseJsonChars (anthropicData s) = some (anthropicJson s) := by
  have h1 : (String.toList "\x7b\"type\":\"content_block_delta\",\"delta\":\x7b\"text\":\"").length = 47 := rfl
  have h2 : (String.toList "\"\x7d\x7d").length = 3 := rfl
  have hlen : (anthropicData s).length = s.length + 50 := by
    simp [anthropicData, List.length_append, h1, h2]
  have hfuel : 2 * (anthropicData s).length + 2 = (2 * s.length + 96) + 6 := by
    rw [hlen]; omega
  unfold parseJsonChars
  rw [show skipWs (anthropicData s) = anthropicData s from rfl, hfuel,
    parseValue_anthropicData (2 * s.length + 96) s hs]
  rfl

theorem parseJsonChars_ollamaData (s : List Char) (hs : s.all safeChar = true) :
    parseJsonChars (ollamaData s) = some (ollamaJson s) := by
  have h1 : (String.toList "\x7b\"choices\":[\x7b\"text\":\"").length = 21 := rfl
  have h2 : (String.toList "\"\x7d]\x7d").length = 4 := rfl
  have hlen : (ollamaData s).length = s.length + 25 := by
    simp [ollamaData, List.length_append, h1, h2]
  have hfuel : 2 * (ollamaData s).length + 2 = (2 * s.length + 45) + 7 := by
    rw [hlen]; omega
  unfold parseJsonChars
  rw [show skipWs (ollamaData s) = ollamaData s from rfl, hfuel,
    parseValue_ollamaData (2 * s.length + 45) s hs]
  rfl

theorem safe_no_nl (s : List Char) (hs : s.all safeChar = true) : '\n' ∉ s := by
  intro hmem
  have h := List.all_eq_true.mp hs '\n' hmem
  exact absurd h (by decide)

theorem flat_emit_str (s : List Char) : flat (emitContent (some (.str s))) = s := by
  cases s with
  | nil => rfl
  | cons c cs => simp [emitContent, jsTruthy, jsToText, flat]

theorem openAIFrame_lines (s : List Char) (hs : s.all safeChar = true) :
    chunkLines (openAIFrame s) = [dataMarker ++ openAIData s] := by
  have hnl : '\n' ∉ dataMarker ++ openAIData s := by
    intro h
    rcases List.mem_append.mp h with h | h
    · exact absurd h (by decide)
    · unfold openAIData at h
      rcases List.mem_append.mp h with h | h
      · exact absurd h (by decide)
      · rcases List.mem_append.mp h with h | h
        · exact safe_no_nl s hs h
        · exact absurd h (by decide)
  have hsplit : openAIFrame s = (dataMarker ++ openAIData s) ++ '\n' :: '\n' :: [] := by
    unfold openAIFrame
    rw [List.append_assoc]
    rfl
  rw [hsplit]
  unfold chunkLines
  rw [splitNl_append_nl _ hnl, show splitNl ('\n' :: []) = [[], []] from rfl]
  have hpred : (!(jsTrim (dataMarker ++ openAIData s)).isEmpty) = true := by
    rw [show dataMarker ++ openAIData s =
      'd' :: ('a' :: 't' :: 'a' :: ':' :: ' ' :: openAIData s) from rfl]
    rw [jsTrim_head_not_ws 'd' _ (by decide)]
    rfl
  rw [List.filter_cons]
  rw [hpred]
  rfl

theorem openAIChunk_frame (s : List Char) (hs : s.all safeChar = true) :
    flat (openAIChunk (openAIFrame s)) = s := by
  have hne : openAIData s ≠ doneSentinel := by
    intro h
    have h1 : (openAIData s).head? = some '{' := rfl
    rw [h] at h1
    exact absurd h1 (by decide)
  unfold openAIChunk
  rw [openAIFrame_lines s hs]
  show flat (match dropLead dataMarker (dataMarker ++ openAIData s) with
    | some data =>
      if data = doneSentinel then []
      else
        match parseJsonChars data with
        | some parsed => emitContent (openAIContent parsed) ++ openAILines []
        | Option.none => openAILines []
    | Option.none => openAILines []) = s
  rw [dropLead_append]
  show flat (if openAIData s = doneSentinel then []
    else
      match parseJsonChars (openAIData s) with
      | some parsed => emitContent (openAIContent parsed) ++ openAILines []
      | Option.none => openAILines []) = s
  rw [if_neg hne, parseJsonChars_openAIData s hs]
  show flat (emitContent (openAIContent (openAIJson s)) ++ []) = s
  rw [List.append_nil, show openAIContent (openAIJson s) = some (.str s) from rfl]
  exact flat_emit_str s

theorem ollamaFrame_lines (s : List Char) (hs : s.all safeChar = true) :
    chunkLines (ollamaFrame s) = [ollamaData s] := by
  have hnl : '\n' ∉ ollamaData s := by
    intro h
    unfold ollamaData at h
    rcases List.mem_append.mp h with h | h
    · exact absurd h (by decide)
    · rcases List.mem_append.mp h with h | h
      · exact safe_no_nl s hs h
      · exact absurd h (by decide)
  obtain ⟨t, ht⟩ : ∃ t, ollamaData s = '{' :: t := ⟨_, rfl⟩
  unfold chunkLines ollamaFrame
  rw [splitNl_append_nl _ hnl, show splitNl ([] : List Char) = [[]] from rfl]
  have hpred : (!(jsTrim (ollamaData s)).isEmpty) = true := by
    rw [ht, jsTrim_head_not_ws '{' t (by decide)]
    rfl
  rw [List.filter_cons, hpred]
  rfl

theorem ollamaChunk_frame (s : List Char) (hs : s.all safeChar = true) :
    flat (ollamaChunk (ollamaFrame s)) = s := by
  unfold ollamaChunk
  rw [ollamaFrame_lines s hs]
  show flat (ollamaLine (ollamaData s) ++ ollamaLines []) = s
  unfold ollamaLine
  rw [parseJsonChars_ollamaData s hs]
  show flat (emitContent (ollamaContent (ollamaJson s)) ++ []) = s
  rw [List.append_nil, show ollamaContent (ollamaJson s) = some (.str s) from rfl]
  exact flat_emit_str s

theorem anthropicFrame_lines (s : List Char) (hs : s.all safeChar = true) :
    chunkLines (anthropicFrame s) =
      [String.toList "event: content_block_delta", dataMarker ++ anthropicData s] := by
  have hnlE : '\n' ∉ String.toList "event: content_block_delta" := by decide
  have hnl : '\n' ∉ dataMarker ++ anthropicData s := by
    intro h
    rcases List.mem_append.mp h with h | h
    · exact absurd h (by decide)
    · unfold anthropicData at h
      rcases List.mem_append.mp h with h | h
      · exact absurd h (by decide)
      · rcases List.mem_append.mp h with h | h
        · exact safe_no_nl s hs h
        · exact absurd h (by decide)
  have hsplit : anthropicFrame s = String.toList "event: content_block_delta" ++
      '\n' :: ((dataMarker ++ anthropicData s) ++ '\n' :: '\n' :: []) := rfl
  rw [hsplit]
  unfold chunkLines
  rw [splitNl_append_nl _ hnlE, splitNl_append_nl _ hnl,
    show splitNl ('\n' :: []) = [[], []] from rfl]
  have hpredE : (!(jsTrim (String.toList "event: content_block_delta")).isEmpty) = true := by
    decide
  have hpred : (!(jsTrim (dataMarker ++ anthropicData s)).isEmpty) = true := by
    rw [show dataMarker ++ anthropicData s =
      'd' :: ('a' :: 't' :: 'a' :: ':' :: ' ' :: anthropicData s) from rfl]
    rw [jsTrim_head_not_ws 'd' _ (by decide)]
    rfl
  rw [List.filter_cons, hpredE, List.filter_cons, hpred]
  rfl

theorem anthropicChunk_frame (s : List Char) (hs : s.all safeChar = true) :
    flat (anthropicChunk (anthropicFrame s)) = s := by
  unfold anthropicChunk
  rw [anthropicFrame_lines s hs]
  show flat (anthropicLine (String.toList "event: content_block_delta") ++
    (anthropicLine (dataMarker ++ anthropicData s) ++ anthropicLines [])) = s
  rw [show anthropicLine (String.toList "event: content_block_delta") = [] from rfl]
  unfold anthropicLine
  rw [dropLead_append]
  show flat ([] ++ ((match parseJsonChars (anthropicData s) with
      | some parsed =>
        match jsGetField parsed ('t' :: 'y' :: 'p' :: 'e' :: []) with
        | some (.str t) =>
          if t = String.toList "content_block_delta" then
            emitContent (anthropicContent parsed)
          else []
        | _ => []
      | Option.none => []) ++ anthropicLines [])) = s
  rw [parseJsonChars_anthropicData s hs]
  show flat ([] ++ ((if String.toList "content_block_delta" = String.toList "content_block_delta"
      then emitContent (anthropicContent (anthropicJson s)) else []) ++ [])) = s
  rw [if_pos rfl, List.append_nil, List.nil_append,
    show anthropicContent (anthropicJson s) = some (.str s) from rfl]
  exact flat_emit_str s

theorem openAIOut_frames (frames : List (List Char))
    (h : ∀ s ∈ frames, s.all safeChar = true) :
    openAIOut (frames.map openAIFrame) = flat frames := by
  induction frames with
  | nil => rfl
  | cons s rest ih =>
    have hs := h s (List.mem_cons_self s rest)
    have hr : ∀ x ∈ rest, x.all safeChar = true := fun x hx => h x (List.mem_cons_of_mem s hx)
    show flat (openAIChunk (openAIFrame s)) ++ openAIOut (rest.map openAIFrame) = s ++ flat rest
    rw [openAIChunk_frame s hs, ih hr]

theorem anthropicOut_frames (frames : List (List Char))
    (h : ∀ s ∈ frames, s.all safeChar = true) :
    anthropicOut (frames.map anthropicFrame) = flat frames := by
  induction frames with
  | nil => rfl
  | cons s rest ih =>
    have hs := h s (List.mem_cons_self s rest)
    have hr : ∀ x ∈ rest, x.all safeChar = true := fun x hx => h x (List.mem_cons_of_mem s hx)
    show flat (anthropicChunk (anthropicFrame s)) ++ anthropicOut (rest.map anthropicFrame) =
      s ++ flat rest
    rw [anthropicChunk_frame s hs, ih hr]

theorem ollamaOut_frames (frames : List (List Char))
    (h : ∀ s ∈ frames, s.all safeChar = true) :
    ollamaOut (frames.map ollamaFrame) = flat frames := by
  induction frames with
  | nil => rfl
  | cons s rest ih =>
    have hs := h s (List.mem_cons_self s rest)
    have hr : ∀ x ∈ rest, x.all safeChar = true := fun x hx => h x (List.mem_cons_of_mem s hx)
    show flat (ollamaChunk (ollamaFrame s)) ++ ollamaOut (rest.map ollamaFrame) = s ++ flat rest
    rw [ollamaChunk_frame s hs, ih hr]

theorem openAILines_done (X : List (List Char)) :
    openAILines ((dataMarker ++ doneSentinel) :: X) = [] := by
  show (match dropLead dataMarker (dataMarker ++ doneSentinel) with
    | some data =>
      if data = doneSentinel then []
      else
        match parseJsonChars data with
        | some parsed => emitContent (openAIContent parsed) ++ openAILines X
        | Option.none => openAILines X
    | Option.none => openAILines X) = []
  rw [dropLead_append]
  show (if doneSentinel = doneSentinel then []
    else
      match parseJsonChars doneSentinel with
      | some parsed => emitContent (openAIContent parsed) ++ openAILines X
      | Option.none => openAILines X) = []
  rw [if_pos rfl]

theorem openAIChunk_badline (bad : List Char) (hbad : parseJsonChars bad = Option.none)
    (hne : bad ≠ doneSentinel) (hnl : '\n' ∉ bad) :
    openAIChunk (dataMarker ++ (bad ++ '\n' :: [])) = [] := by
  unfold openAIChunk chunkLines
  rw [show dataMarker ++ (bad ++ '\n' :: []) = (dataMarker ++ bad) ++ '\n' :: [] from
    (List.append_assoc _ _ _).symm]
  have hnl2 : '\n' ∉ dataMarker ++ bad := by
    intro h
    rcases List.mem_append.mp h with h | h
    · exact absurd h (by decide)
    · exact hnl h
  rw [splitNl_append_nl _ hnl2, show splitNl ([] : List Char) = [[]] from rfl]
  have hpred : (!(jsTrim (dataMarker ++ bad)).isEmpty) = true := by
    rw [show dataMarker ++ bad = 'd' :: ('a' :: 't' :: 'a' :: ':' :: ' ' :: bad) from rfl,
      jsTrim_head_not_ws 'd' _ (by decide)]
    rfl
  rw [List.filter_cons, hpred]
  show openAILines ((dataMarker ++ bad) :: []) = []
  show (match dropLead dataMarker (dataMarker ++ bad) with
    | some data =>
      if data = doneSentinel then []
      else
        match parseJsonChars data with
        | some parsed => emitContent (openAIContent parsed) ++ openAILines []
        | Option.none => openAILines []
    | Option.none => openAILines []) = []
  rw [dropLead_append]
  show (if bad = doneSentinel then []
    else
      match parseJsonChars bad with
      | some parsed => emitContent (openAIContent parsed) ++ openAILines []
      | Option.none => openAILines []) = []
  rw [if_neg hne, hbad]
  rfl

theorem ollamaChunk_badline (bad : List Char) (hbad : parseJsonChars bad = Option.none)
    (hnl : '\n' ∉ bad) :
    ollamaChunk (bad ++ '\n' :: []) = [] := by
  unfold ollamaChunk chunkLines
  rw [splitNl_append_nl _ hnl, show splitNl ([] : List Char) = [[]] from rfl]
  rw [List.filter_cons]
  cases hp : (!(jsTrim bad).isEmpty) with
  | true =>
    rw [if_pos rfl]
    show ollamaLine bad ++ ollamaLines (List.filter (fun l => !(jsTrim l).isEmpty) [[]]) = []
    unfold ollamaLine
    rw [hbad]
    rfl
  | false =>
    rw [if_neg (by simp)]
    rfl

set_option maxRecDepth 100000 in
/-- Counterexample to C2 as stated: a well-formed OpenAI body is not
split-invariant — the same frame delivered whole yields "Hello", but
split mid-JSON across two chunks yields nothing, because each
transform-callback invocation decodes and line-splits its chunk in
isolation, with no partial-line buffering. -/
theorem openAI_split_loses_content :
    String.toList "data: \x7b\"choices\":[\x7b\"del" ++
        String.toList "ta\":\x7b\"content\":\"Hello\"\x7d\x7d]\x7d\n\n" =
      openAIFrame (String.toList "Hello") ∧
    openAIOut [String.toList "data: \x7b\"choices\":[\x7b\"del",
      String.toList "ta\":\x7b\"content\":\"Hello\"\x7d\x7d]\x7d\n\n"] = [] ∧
    openAIOut [openAIFrame (String.toList "Hello")] = String.toList "Hello" ∧
    String.toList "Hello" ≠ [] :=
  ⟨by decide, by decide, by decide, by decide⟩

/-- C2 (amended): for every sequence of well-formed frames whose text
needs no JSON string escaping, if the upstream body is delivered with the
chunk boundaries aligned to the frame boundaries (one frame per chunk),
then the concatenation in emission order of everything each stream
transform emits equals the concatenation of the frames' decoded text, for
each of the three streaming wire formats.  (The claim's stronger
"regardless of how the body is split" form is refuted by
the counterexample: a frame split mid-JSON is dropped.) -/
theorem stream_concat_of_aligned_frames :
    (∀ frames : List (List Char), (∀ s ∈ frames, s.all safeChar = true) →
      openAIOut (frames.map openAIFrame) = flat frames) ∧
    (∀ frames : List (List Char), (∀ s ∈ frames, s.all safeChar = true) →
      anthropicOut (frames.map anthropicFrame) = flat frames) ∧
    (∀ frames : List (List Char), (∀ s ∈ frames, s.all safeChar = true) →
      ollamaOut (frames.map ollamaFrame) = flat frames) :=
  ⟨openAIOut_frames, anthropicOut_frames, ollamaOut_frames⟩

set_option maxRecDepth 100000 in
/-- Witness for C2's amended theorem on concrete frame sequences in each
wire format. -/
theorem stream_concat_of_aligned_frames_witness :
    openAIOut ([String.toList "Hel", String.toList "lo"].map openAIFrame) =
      String.toList "Hello" ∧
    anthropicOut ([String.toList "Hi there"].map anthropicFrame) = String.toList "Hi there" ∧
    ollamaOut ([String.toList "ab", String.toList "c"].map ollamaFrame) = String.toList "abc" := by
  refine ⟨?_, ?_, ?_⟩
  · rw [stream_concat_of_aligned_frames.1 _ (by decide)]
    decide
  · rw [stream_concat_of_aligned_frames.2.1 _ (by decide)]
    decide
  · rw [stream_concat_of_aligned_frames.2.2 _ (by decide)]
    decide

set_option maxRecDepth 100000 in
/-- Counterexample to C3 as stated: the `[DONE]` sentinel does not
suppress content in later chunks — the transform keeps no state across
callback invocations, so a valid data line in a chunk after the sentinel
chunk is still emitted. -/
theorem openAI_done_crosschunk_leak :
    openAIOut [String.toList "data: [DONE]\n\n", openAIFrame (String.toList "Hi")] =
      String.toList "Hi" ∧
    String.toList "Hi" ≠ [] :=
  ⟨by decide, by decide⟩

/-- C3 (amended): within a single upstream chunk the `[DONE]` sentinel is
final — every line after it in that chunk, well-formed or not, contributes
nothing, because the callback `return`s; but this does not extend across
chunks (see the counterexample), so the sentinel stops emission only for
the remainder of the chunk that carries it. -/
theorem openAI_done_stops_chunk (pre post : List (List Char)) :
    openAILines (pre ++ (dataMarker ++ doneSentinel) :: post) =
      openAILines (pre ++ [dataMarker ++ doneSentinel]) := by
  induction pre with
  | nil =>
    rw [List.nil_append, List.nil_append, openAILines_done, openAILines_done]
  | cons l tl ih =>
    show (match dropLead dataMarker l with
      | some data =>
        if data = doneSentinel then []
        else
          match parseJsonChars data with
          | some parsed =>
            emitContent (openAIContent parsed) ++
              openAILines (tl ++ (dataMarker ++ doneSentinel) :: post)
          | Option.none => openAILines (tl ++ (dataMarker ++ doneSentinel) :: post)
      | Option.none => openAILines (tl ++ (dataMarker ++ doneSentinel) :: post)) =
      (match dropLead dataMarker l with
      | some data =>
        if data = doneSentinel then []
        else
          match parseJsonChars data with
          | some parsed =>
            emitContent (openAIContent parsed) ++
              openAILines (tl ++ [dataMarker ++ doneSentinel])
          | Option.none => openAILines (tl ++ [dataMarker ++ doneSentinel])
      | Option.none => openAILines (tl ++ [dataMarker ++ doneSentinel]))
    rw [ih]

/-- C5: a line whose JSON payload does not parse, among otherwise valid
lines, is skipped without error and without ending the stream: the OpenAI
and Ollama transforms still emit the decoded content of every valid
frame, in order, and the malformed line contributes nothing. -/
theorem malformed_line_skipped :
    (∀ (pre post : List (List Char)) (bad : List Char),
      (∀ s ∈ pre, s.all safeChar = true) → (∀ s ∈ post, s.all safeChar = true) →
      (parseJsonChars bad).isNone = true → bad ≠ doneSentinel → '\n' ∉ bad →
      openAIOut (pre.map openAIFrame ++
          (dataMarker ++ (bad ++ '\n' :: [])) :: post.map openAIFrame) =
        flat pre ++ flat post) ∧
    (∀ (pre post : List (List Char)) (bad : List Char),
      (∀ s ∈ pre, s.all safeChar = true) → (∀ s ∈ post, s.all safeChar = true) →
      (parseJsonChars bad).isNone = true → '\n' ∉ bad →
      ollamaOut (pre.map ollamaFrame ++ (bad ++ '\n' :: []) :: post.map ollamaFrame) =
        flat pre ++ flat post) := by
  constructor
  · intro pre post bad hpre hpost hbad hne hnl
    have hbad2 : parseJsonChars bad = Option.none := Option.isNone_iff_eq_none.mp hbad
    unfold openAIOut
    rw [concatOut_append]
    show concatOut openAIChunk (List.map openAIFrame pre) ++
        (flat (openAIChunk (dataMarker ++ (bad ++ '\n' :: []))) ++
          concatOut openAIChunk (List.map openAIFrame post)) =
      flat pre ++ flat post
    rw [openAIChunk_badline bad hbad2 hne hnl]
    show concatOut openAIChunk (List.map openAIFrame pre) ++
        concatOut openAIChunk (List.map openAIFrame post) = flat pre ++ flat post
    rw [show concatOut openAIChunk (List.map openAIFrame pre) =
        openAIOut (pre.map openAIFrame) from rfl,
      show concatOut openAIChunk (List.map openAIFrame post) =
        openAIOut (post.map openAIFrame) from rfl,
      openAIOut_frames pre hpre, openAIOut_frames post hpost]
  · intro pre post bad hpre hpost hbad hnl
    have hbad2 : parseJsonChars bad = Option.none := Option.isNone_iff_eq_none.mp hbad
    unfold ollamaOut
    rw [concatOut_append]
    show concatOut ollamaChunk (List.map ollamaFrame pre) ++
        (flat (ollamaChunk (bad ++ '\n' :: [])) ++
          concatOut ollamaChunk (List.map ollamaFrame post)) =
      flat pre ++ flat post
    rw [ollamaChunk_badline bad hbad2 hnl]
    show concatOut ollamaChunk (List.map ollamaFrame pre) ++
        concatOut ollamaChunk (List.map ollamaFrame post) = flat pre ++ flat post
    rw [show concatOut ollamaChunk (List.map ollamaFrame pre) =
        ollamaOut (pre.map ollamaFrame) from rfl,
      show concatOut ollamaChunk (List.map ollamaFrame post) =
        ollamaOut (post.map ollamaFrame) from rfl,
      ollamaOut_frames pre hpre, ollamaOut_frames post hpost]

set_option maxRecDepth 100000 in
/-- Witness for C5 at a concrete malformed line between two valid
frames, in both the OpenAI and the Ollama wire formats. -/
theorem malformed_line_skipped_witness :
    openAIOut ([String.toList "A"].map openAIFrame ++
        (dataMarker ++ (String.toList "\x7boops" ++ '\n' :: [])) ::
          [String.toList "B"].map openAIFrame) = String.toList "AB" ∧
    ollamaOut ([String.toList "A"].map ollamaFrame ++
        (String.toList "not json" ++ '\n' :: []) ::
          [String.toList "B"].map ollamaFrame) = String.toList "AB" := by
  constructor
  · rw [malformed_line_skipped.1 [String.toList "A"] [String.toList "B"] (String.toList "\x7boops")
      (by decide) (by decide) (by decide) (by decide) (by decide)]
    decide
  · rw [malformed_line_skipped.2 [String.toList "A"] [String.toList "B"]
      (String.toList "not json") (by decide) (by decide) (by decide) (by decide)]
    decide

end Gateway